import Mathlib

/-!
Verification of the ILV inner-product commitment break (`src/main.rs`).

The pairing-curve layer (BLS12-381 via arkworks) is an external collaborator:
all three groups G1, G2, GT are cyclic of the same prime order, so we embed
group elements by their discrete logarithms in the scalar field `F`.
Under this embedding:
  * a G1/G2/GT element is an `F` value (its dlog w.r.t. the fixed generator);
  * the group identity is `0`, group addition is `+`;
  * scalar multiplication `P.mul k` is field multiplication `k * p`;
  * the pairing `e(g^x, h^y) = gt^(x*y)` is field multiplication;
  * equality of group elements is equality of dlogs (the dlog map is a
    bijection for prime-order cyclic groups, so this is faithful).

Rust `assert!`/`assert_eq!` failures and out-of-bounds indexing (both of
which panic) are embedded as `Except.error` values, so that which check
fails, and whether any check fails, is observable in the model.
-/

section ILVModel

variable {F : Type} [Field F] [DecidableEq F]

/-- The SRS. The repository's `data_structures.rs` is not in `src/`;
the fields are exactly the ones `src/main.rs` reads
(`powers_of_beta_g_first`, `powers_of_beta_h`), each a sequence of group
elements represented by their discrete logarithms. Per the spec, the first
list is intended to hold `g^(beta^0), ..., g^(beta^k)` and the second
`h^(beta^0), h^(beta^1)`. -/
structure CommitmentKey (F : Type) where
  powers_of_beta_g_first : List F
  powers_of_beta_h : List F
deriving DecidableEq

/-- The forged tuple returned by `attack` (`attack::Attack` in the source;
the module file is absent, but the constructor at `src/main.rs:63-68` fixes
its four fields). `commitment` and `proof` are single G1 elements
(the spec's `Commitment` and `Proof` wrappers, flattened to their dlogs). -/
structure Attack (F : Type) where
  a : List F
  commitment : F
  claimed_inner_product : F
  proof : F
deriving DecidableEq

/-- The pairing map in dlog coordinates: `e(g^x, h^y) = gt^(x*y)`. -/
def pairing (x y : F) : F := x * y

/-- Modelled from the spec: `algorithms.rs` (the `ILV::commit` body) is not
in `src/`. Per section 4.2, `commit(key, a)` is the multi-scalar product
`sum_i a_i * powers_g1[i]`, pairing each coefficient with the G1 power of
the same index. -/
def commit (ck : CommitmentKey F) (a : List F) : F :=
  (List.zipWith (fun x p => x * p) a ck.powers_of_beta_g_first).sum

/-- How an `attack` run can fail: the two `assert_eq!` checks at
`src/main.rs:25` and `src/main.rs:29-38`, the zero-commitment assertion at
`src/main.rs:55`, and out-of-bounds indexing (all Rust panics, embedded as
error values). -/
inductive AttackError where
  | wrongLength
  | outOfBounds
  | inconsistentPowers
  | commitNotZero
deriving DecidableEq

/-- The attack of `src/main.rs:22-69`, with the single scalar drawn from
`ark_std::test_rng()` hoisted into the argument `rngDraw` (the rng is an
external fixed-seed generator; its one draw is the only input of `attack`
not literally present in the Rust signature). Steps, in source order:
assert the first SRS part has `dim+2` elements; check the boundary pairing
relation `e(P_dim, h^beta) = e(P_(dim+1), h)`; commit to the zero vector of
length `dim` and assert the commitment is the identity; return the forged
tuple with `claimed_inner_product = rngDraw` and
`proof = P_(dim+1) * (-rngDraw)`. -/
def attack (ck : CommitmentKey F) (dim : ℕ) (rngDraw : F) :
    Except AttackError (Attack F) :=
  if ck.powers_of_beta_g_first.length = dim + 2 then
    if dim + 1 < ck.powers_of_beta_g_first.length ∧ 1 < ck.powers_of_beta_h.length then
      if pairing (ck.powers_of_beta_g_first.getD dim 0) (ck.powers_of_beta_h.getD 1 0)
          = pairing (ck.powers_of_beta_g_first.getD (dim + 1) 0)
              (ck.powers_of_beta_h.getD 0 0) then
        let a : List F := List.replicate dim 0
        let cm := commit ck a
        if cm = 0 then
          Except.ok
            { a := a
              commitment := cm
              claimed_inner_product := rngDraw
              proof := (-rngDraw) * ck.powers_of_beta_g_first.getD (dim + 1) 0 }
        else Except.error AttackError.commitNotZero
      else Except.error AttackError.inconsistentPowers
    else Except.error AttackError.outOfBounds
  else Except.error AttackError.wrongLength

/-- Modelled from the spec: the public-vector-dependent check group element
recomputed by `verify` (section 4.2). In dlog coordinates its value is
`Bbar(beta) = sum_j b_j * beta^(dim+1-j)`, read off the key's power
sequence at indices `dim+1-j`. -/
def check_element (ck : CommitmentKey F) (dim : ℕ) (b : List F) : F :=
  ((List.range b.length).map
    (fun j => b.getD j 0 * ck.powers_of_beta_g_first.getD (dim + 1 - j) 0)).sum

/-- Modelled from the spec: `ILV::verify` (`algorithms.rs`) is not in
`src/`. Section 4.2 gives the pairing equation only schematically and
section 9 states that any construction satisfying the section 8 properties
is conformant; we take the standard ILV check the rationale in section 4.3
describes: the commitment paired with the public-vector check element must
equal the proof paired with `h`, shifted by the claimed value placed in the
degree-`dim+1` slot `e(P_dim, h^beta)`. In dlog coordinates (GT
multiplication becomes addition):
`cm * Bbar(beta) = proof * h_0 + claimed * (P_dim * h_1)`. -/
def verify (ck : CommitmentKey F) (dim : ℕ) (cm : F) (b : List F)
    (claimed : F) (proof : F) : Bool :=
  decide (pairing cm (check_element ck dim b)
    = pairing proof (ck.powers_of_beta_h.getD 0 0)
      + pairing (claimed * ck.powers_of_beta_g_first.getD dim 0)
          (ck.powers_of_beta_h.getD 1 0))

/-- Modelled from the spec: `Attack::assert_attack_works` (`attack.rs`) is
not in `src/`. Section 4.3: run `verify` on the forged tuple for any public
vector `b`; it succeeds when `verify` returns true for every such `b` of
the supported length. -/
def Attack.assert_attack_works (att : Attack F) (ck : CommitmentKey F)
    (dim : ℕ) : Prop :=
  ∀ b : List F, b.length = dim →
    verify ck dim att.commitment b att.claimed_inner_product att.proof = true

/-- Modelled from the spec: the SRS validation errors of section 7
(`SrsError::WrongLength`, `SrsError::InconsistentPowers`); the error types
live in the modules absent from `src/`. -/
inductive SrsError where
  | WrongLength
  | InconsistentPowers
deriving DecidableEq

/-- Modelled from the spec: `validate_dimension` (section 4.1), absent from
`src/`: fails with `SrsError.WrongLength` unless the first SRS part has
exactly `dim+1` elements. -/
def validate_dimension (ck : CommitmentKey F) (dim : ℕ) :
    Except SrsError Unit :=
  if ck.powers_of_beta_g_first.length = dim + 1 then Except.ok ()
  else Except.error SrsError.WrongLength

/-- The outcome of an audit: either the SRS exposes no extra power, or the
leaked trapdoor element is reported. -/
inductive AuditResult (F : Type) where
  | NoLeak : AuditResult F
  | LeakFound : F → AuditResult F
deriving DecidableEq

/-- Modelled from the spec: `audit` (section 4.3), absent from `src/`: run
`validate_dimension`; a `dim+1`-length SRS is reported leak-free; a
`dim+2`-length SRS has its boundary element checked by the pairing relation
of section 4.1 and reported as the leaked trapdoor element. -/
def audit (ck : CommitmentKey F) (dim : ℕ) :
    Except SrsError (AuditResult F) :=
  match validate_dimension ck dim with
  | Except.ok _ => Except.ok AuditResult.NoLeak
  | Except.error e =>
    if ck.powers_of_beta_g_first.length = dim + 2 then
      if pairing (ck.powers_of_beta_g_first.getD dim 0) (ck.powers_of_beta_h.getD 1 0)
          = pairing (ck.powers_of_beta_g_first.getD (dim + 1) 0)
              (ck.powers_of_beta_h.getD 0 0) then
        Except.ok (AuditResult.LeakFound (ck.powers_of_beta_g_first.getD (dim + 1) 0))
      else Except.error SrsError.InconsistentPowers
    else Except.error e

/-- `SUPPORTED_DIM` of `src/main.rs:72`. -/
def SUPPORTED_DIM : ℕ := 512

end ILVModel

instance : Fact (Nat.Prime 11) := ⟨by norm_num⟩

/-- A concrete leaky SRS over the scalar field `ZMod 11`: trapdoor
`beta = 2`, supported dimension 1, first part holding the `dim+2 = 3`
powers `beta^0, beta^1, beta^2` and second part `beta^0, beta^1`. -/
def ckLeaky : CommitmentKey (ZMod 11) := ⟨[1, 2, 4], [1, 2]⟩

/-- A concrete well-formed SRS over `ZMod 11` for dimension 1: the first
part holds exactly the `dim+1 = 2` powers `beta^0, beta^1`. -/
def ckWellFormed : CommitmentKey (ZMod 11) := ⟨[1, 2], [1, 2]⟩

/-- A degenerate key whose G1 part consists of identity elements: the
boundary pairing relation holds trivially (both sides are the GT identity),
yet the leaked slot holds the G1 identity. -/
def ckDegenerate : CommitmentKey (ZMod 11) := ⟨[0, 0, 0], [1, 1]⟩

section Lemmas

variable {F : Type} [Field F] [DecidableEq F]

omit [DecidableEq F] in
theorem zipWith_mul_replicate_zero_sum (l : List F) (n : ℕ) :
    (List.zipWith (fun x p => x * p) (List.replicate n (0 : F)) l).sum = 0 := by
  induction l generalizing n with
  | nil => simp
  | cons p ps ih =>
    cases n with
    | zero => simp
    | succ m => simpa [List.replicate_succ] using ih m

omit [DecidableEq F] in
theorem commit_replicate_zero (ck : CommitmentKey F) (n : ℕ) :
    commit ck (List.replicate n (0 : F)) = 0 := by
  simp [commit, zipWith_mul_replicate_zero_sum]

theorem attack_ok_of_consistent (ck : CommitmentKey F) (dim : ℕ) (r : F)
    (hlen : ck.powers_of_beta_g_first.length = dim + 2)
    (hh : 2 ≤ ck.powers_of_beta_h.length)
    (hb : pairing (ck.powers_of_beta_g_first.getD dim 0) (ck.powers_of_beta_h.getD 1 0)
        = pairing (ck.powers_of_beta_g_first.getD (dim + 1) 0)
            (ck.powers_of_beta_h.getD 0 0)) :
    attack ck dim r = Except.ok
      ⟨List.replicate dim 0, commit ck (List.replicate dim 0), r,
        (-r) * ck.powers_of_beta_g_first.getD (dim + 1) 0⟩ := by
  unfold attack
  rw [if_pos hlen, if_pos ⟨by omega, by omega⟩, if_pos hb,
    if_pos (commit_replicate_zero ck dim)]

theorem attack_ok_inversion (ck : CommitmentKey F) (dim : ℕ) (r : F) (att : Attack F)
    (h : attack ck dim r = Except.ok att) :
    ck.powers_of_beta_g_first.length = dim + 2 ∧
    1 < ck.powers_of_beta_h.length ∧
    pairing (ck.powers_of_beta_g_first.getD dim 0) (ck.powers_of_beta_h.getD 1 0)
      = pairing (ck.powers_of_beta_g_first.getD (dim + 1) 0)
          (ck.powers_of_beta_h.getD 0 0) ∧
    att = ⟨List.replicate dim 0, commit ck (List.replicate dim 0), r,
            (-r) * ck.powers_of_beta_g_first.getD (dim + 1) 0⟩ := by
  have hkeep := h
  unfold attack at h
  split_ifs at h with h1 h2 h3
  · have h0 := attack_ok_of_consistent ck dim r h1 (by omega) h3
    rw [hkeep] at h0
    injection h0 with h0
    exact ⟨h1, h2.2, h3, h0⟩

theorem forged_proof_verifies (ck : CommitmentKey F) (dim : ℕ) (r : F)
    (hb : pairing (ck.powers_of_beta_g_first.getD dim 0) (ck.powers_of_beta_h.getD 1 0)
        = pairing (ck.powers_of_beta_g_first.getD (dim + 1) 0)
            (ck.powers_of_beta_h.getD 0 0))
    (b : List F) :
    verify ck dim 0 b r ((-r) * ck.powers_of_beta_g_first.getD (dim + 1) 0) = true := by
  simp only [verify, pairing, decide_eq_true_eq]
  simp only [pairing] at hb
  linear_combination (-r) * hb

end Lemmas

section Claims

variable {F : Type} [Field F] [DecidableEq F]

/-- C1: given a `CommitmentKey` whose `powers_of_beta_g_first` has exactly
`dim+2` elements satisfying the adjacent pairing-consistency relation, the
attack produces a forged tuple — the zero vector, the identity commitment,
the sampled nonzero claimed value, and a proof — such that `verify`
returns `true` for every public vector `b` of length `dim`, and
`assert_attack_works`, run on this tuple with the same key and `dim`,
succeeds. -/
theorem attack_forges_verifying_triple (ck : CommitmentKey F) (dim : ℕ) (r : F)
    (hlen : ck.powers_of_beta_g_first.length = dim + 2)
    (hh : 2 ≤ ck.powers_of_beta_h.length)
    (hcons : ∀ i < dim + 1,
      pairing (ck.powers_of_beta_g_first.getD i 0) (ck.powers_of_beta_h.getD 1 0)
        = pairing (ck.powers_of_beta_g_first.getD (i + 1) 0)
            (ck.powers_of_beta_h.getD 0 0))
    (_hr : r ≠ 0) :
    ∃ att : Attack F,
      attack ck dim r = Except.ok att ∧
      att.commitment = 0 ∧
      att.claimed_inner_product = r ∧
      (∀ b : List F, b.length = dim →
        verify ck dim att.commitment b r att.proof = true) ∧
      att.assert_attack_works ck dim := by
  have hb := hcons dim (by omega)
  refine ⟨_, attack_ok_of_consistent ck dim r hlen hh hb,
    commit_replicate_zero ck dim, rfl, ?_, ?_⟩
  · intro b _
    simpa only [commit_replicate_zero] using forged_proof_verifies ck dim r hb b
  · intro b _
    simpa only [commit_replicate_zero] using forged_proof_verifies ck dim r hb b

theorem attack_forges_verifying_triple_witness :
    ∃ att : Attack (ZMod 11),
      attack ckLeaky 1 (5 : ZMod 11) = Except.ok att ∧
      att.commitment = 0 ∧
      att.claimed_inner_product = 5 ∧
      (∀ b : List (ZMod 11), b.length = 1 →
        verify ckLeaky 1 att.commitment b 5 att.proof = true) ∧
      att.assert_attack_works ckLeaky 1 :=
  attack_forges_verifying_triple ckLeaky 1 5 (by decide) (by decide)
    (by decide) (by decide)

/-- C2: the forged proof is the leaked element `powers_of_beta_g_first[dim+1]`
scalar-multiplied by the negation of the sampled claimed value, and the
returned quadruple consists of exactly the zero vector `a`, the commitment
to `a`, the claimed value, and that proof. -/
theorem attack_returns_leaked_power_proof (ck : CommitmentKey F) (dim : ℕ)
    (r : F) (att : Attack F) (h : attack ck dim r = Except.ok att) :
    att.proof = (-r) * ck.powers_of_beta_g_first.getD (dim + 1) 0 ∧
    att.a = List.replicate dim 0 ∧
    att.commitment = commit ck att.a ∧
    att.claimed_inner_product = r := by
  obtain ⟨-, -, -, rfl⟩ := attack_ok_inversion ck dim r att h
  exact ⟨rfl, rfl, rfl, rfl⟩

theorem attack_returns_leaked_power_proof_witness :
    (2 : ZMod 11) = (-5 : ZMod 11) * ckLeaky.powers_of_beta_g_first.getD 2 0 ∧
    ([0] : List (ZMod 11)) = List.replicate 1 0 ∧
    (0 : ZMod 11) = commit ckLeaky [0] ∧
    (5 : ZMod 11) = 5 :=
  attack_returns_leaked_power_proof ckLeaky 1 5 ⟨[0], 0, 5, 2⟩ rfl

/-- C3: when the SRS is well-formed — `powers_of_beta_g_first` has exactly
`dim+1` elements — the audit reports no leak and the forgery construction
is rejected with a definitive failure value (an `Except.error`, not a
crash, in this embedding of the validation path). -/
theorem wellformed_srs_audit_no_leak (ck : CommitmentKey F) (dim : ℕ) (r : F)
    (hlen : ck.powers_of_beta_g_first.length = dim + 1) :
    audit ck dim = Except.ok AuditResult.NoLeak ∧
    attack ck dim r = Except.error AttackError.wrongLength := by
  constructor
  · unfold audit validate_dimension
    rw [if_pos hlen]
  · unfold attack
    rw [if_neg (by omega)]

theorem wellformed_srs_audit_no_leak_witness :
    audit ckWellFormed 1 = Except.ok AuditResult.NoLeak ∧
    attack ckWellFormed 1 (5 : ZMod 11) = Except.error AttackError.wrongLength :=
  wellformed_srs_audit_no_leak ckWellFormed 1 5 (by decide)

/-- C4: committing to the all-zero vector of length `dim` yields the G1
identity for every key, so the attack's zero-commitment assertion is never
the failing check. -/
theorem commit_zero_vector_identity (ck : CommitmentKey F) (dim : ℕ) :
    commit ck (List.replicate dim 0) = 0 ∧
    ∀ r : F, attack ck dim r ≠ Except.error AttackError.commitNotZero := by
  refine ⟨commit_replicate_zero ck dim, fun r h => ?_⟩
  have hkeep := h
  unfold attack at h
  split_ifs at h with h1 h2 h3
  · rw [attack_ok_of_consistent ck dim r h1 (by omega) h3] at hkeep
    exact Except.noConfusion hkeep
  all_goals (injection h with h; exact AttackError.noConfusion h)

/-- C5: the attack confirms the leaked element by the single boundary
pairing check `e(P_dim, h^beta) = e(P_(dim+1), h^1)` — the adjacent
relation instantiated at index `dim` — and constructs the forgery only
when it holds. -/
theorem attack_checks_boundary_pairing (ck : CommitmentKey F) (dim : ℕ)
    (r : F) (att : Attack F) (h : attack ck dim r = Except.ok att) :
    pairing (ck.powers_of_beta_g_first.getD dim 0) (ck.powers_of_beta_h.getD 1 0)
      = pairing (ck.powers_of_beta_g_first.getD (dim + 1) 0)
          (ck.powers_of_beta_h.getD 0 0) :=
  (attack_ok_inversion ck dim r att h).2.2.1

theorem attack_checks_boundary_pairing_witness :
    pairing (ckLeaky.powers_of_beta_g_first.getD 1 0) (ckLeaky.powers_of_beta_h.getD 1 0)
      = pairing (ckLeaky.powers_of_beta_g_first.getD 2 0)
          (ckLeaky.powers_of_beta_h.getD 0 0) :=
  attack_checks_boundary_pairing ckLeaky 1 5 ⟨[0], 0, 5, 2⟩ rfl

/-- C6: the forged vector has length exactly the caller-supplied `dim`
(512 in the shipped instance) with every entry the scalar zero. -/
theorem forged_vector_zero_of_length_dim (ck : CommitmentKey F) (dim : ℕ)
    (r : F) (att : Attack F) (h : attack ck dim r = Except.ok att) :
    att.a.length = dim ∧ (∀ x ∈ att.a, x = 0) ∧ SUPPORTED_DIM = 512 := by
  obtain ⟨-, -, -, rfl⟩ := attack_ok_inversion ck dim r att h
  exact ⟨by simp, fun x hx => List.eq_of_mem_replicate hx, rfl⟩

theorem forged_vector_zero_of_length_dim_witness :
    ([0] : List (ZMod 11)).length = 1 ∧
    (∀ x ∈ ([0] : List (ZMod 11)), x = 0) ∧ SUPPORTED_DIM = 512 :=
  forged_vector_zero_of_length_dim ckLeaky 1 5 ⟨[0], 0, 5, 2⟩ rfl

/-- C7: the attack is deterministic: two invocations on the same key and
dimension, each consuming the same single fixed-seed rng draw, return
identical outputs in all four components. -/
theorem attack_deterministic (ck : CommitmentKey F) (dim : ℕ) (r : F)
    (att1 att2 : Attack F) (h1 : attack ck dim r = Except.ok att1)
    (h2 : attack ck dim r = Except.ok att2) :
    att1.a = att2.a ∧ att1.commitment = att2.commitment ∧
    att1.claimed_inner_product = att2.claimed_inner_product ∧
    att1.proof = att2.proof := by
  rw [h1] at h2
  injection h2 with h2
  rw [h2]
  exact ⟨rfl, rfl, rfl, rfl⟩

theorem attack_deterministic_witness :
    ([0] : List (ZMod 11)) = [0] ∧ (0 : ZMod 11) = 0 ∧
    (5 : ZMod 11) = 5 ∧ (2 : ZMod 11) = 2 :=
  attack_deterministic ckLeaky 1 5 ⟨[0], 0, 5, 2⟩ ⟨[0], 0, 5, 2⟩ rfl rfl

/-- C8 as stated is false at a concrete input: on the degenerate key the
attack succeeds with sampled claimed value 5, which is nonzero, yet the
forged proof is the G1 identity, because the leaked slot itself holds the
identity element. -/
theorem attack_identity_proof_despite_nonzero_claim :
    ¬ (∀ att : Attack (ZMod 11),
        attack ckDegenerate 1 (5 : ZMod 11) = Except.ok att →
        (att.proof = 0 ↔ att.claimed_inner_product = 0)) := by
  intro hall
  have h5 : (5 : ZMod 11) = 0 := (hall ⟨[0], 0, 5, 0⟩ rfl).mp rfl
  exact absurd h5 (by decide)

/-- C8 amended: the attack passes the sampled scalar through with no
nonzero check, and the forged proof equals the G1 identity exactly when
the sampled claimed value is zero or the leaked element is itself the
identity; whenever the leaked element is not the identity, the proof is
the identity iff the claimed value is zero. -/
theorem attack_no_nonzero_check_proof_identity_iff (ck : CommitmentKey F)
    (dim : ℕ) (r : F) (att : Attack F) (h : attack ck dim r = Except.ok att) :
    att.claimed_inner_product = r ∧
    (att.proof = 0 ↔ r = 0 ∨ ck.powers_of_beta_g_first.getD (dim + 1) 0 = 0) ∧
    (ck.powers_of_beta_g_first.getD (dim + 1) 0 ≠ 0 →
      (att.proof = 0 ↔ r = 0)) := by
  obtain ⟨-, -, -, rfl⟩ := attack_ok_inversion ck dim r att h
  refine ⟨rfl, ?_, ?_⟩
  · simp [mul_eq_zero, neg_eq_zero]
  · intro hL
    simp only [mul_eq_zero, neg_eq_zero, hL, or_false]

theorem attack_no_nonzero_check_proof_identity_iff_witness :
    (5 : ZMod 11) = 5 ∧
    ((2 : ZMod 11) = 0 ↔ (5 : ZMod 11) = 0
      ∨ ckLeaky.powers_of_beta_g_first.getD 2 0 = 0) ∧
    (ckLeaky.powers_of_beta_g_first.getD 2 0 ≠ 0 →
      ((2 : ZMod 11) = 0 ↔ (5 : ZMod 11) = 0)) :=
  attack_no_nonzero_check_proof_identity_iff ckLeaky 1 5 ⟨[0], 0, 5, 2⟩ rfl

/-- C9: with exactly `dim+2` G1 powers and at least two G2 powers, every
index the attack reads (`dim` and `dim+1` in G1, `0` and `1` in G2) is in
bounds, and the attack cannot fail with an out-of-range access. -/
theorem attack_reads_in_bounds (ck : CommitmentKey F) (dim : ℕ) (r : F)
    (hlen : ck.powers_of_beta_g_first.length = dim + 2)
    (hh : 2 ≤ ck.powers_of_beta_h.length) :
    dim < ck.powers_of_beta_g_first.length ∧
    dim + 1 < ck.powers_of_beta_g_first.length ∧
    0 < ck.powers_of_beta_h.length ∧
    1 < ck.powers_of_beta_h.length ∧
    attack ck dim r ≠ Except.error AttackError.outOfBounds := by
  refine ⟨by omega, by omega, by omega, by omega, fun h => ?_⟩
  unfold attack at h
  rw [if_pos hlen, if_pos ⟨by omega, by omega⟩] at h
  split_ifs at h with h3
  · simp [commit_replicate_zero] at h
  · injection h with h
    exact AttackError.noConfusion h

theorem attack_reads_in_bounds_witness :
    1 < ckLeaky.powers_of_beta_g_first.length ∧
    1 + 1 < ckLeaky.powers_of_beta_g_first.length ∧
    0 < ckLeaky.powers_of_beta_h.length ∧
    1 < ckLeaky.powers_of_beta_h.length ∧
    attack ckLeaky 1 (5 : ZMod 11) ≠ Except.error AttackError.outOfBounds :=
  attack_reads_in_bounds ckLeaky 1 5 (by decide) (by decide)

end Claims
